import Mathlib

/-!
Verification of the execution-resource-governor core of the nanoreth node:
adaptive timeout computation (`src/node/rpc/timeout.rs`), chunked execution
(`src/node/rpc/chunked_execution.rs`), the admission-controlled storage guard
(`src/node/storage/timeout.rs`), and the precompile replay cache
(`crates/ethereum/evm/src/lib.rs`).

Modelling conventions:
* Rust `u64` values are `ℕ`; where wraparound matters (the unsigned subtraction
  in the high-gas timeout branch, the rounded-up division in chunk counting)
  the wrap is written explicitly modulo `2 ^ 64`.
* Rust `f64` arithmetic is idealised as exact rational arithmetic; the
  `as u64` cast of a nonnegative float is truncation toward zero (`Int.floor`).
* `async` control flow is modelled as explicit state passing: the underlying
  execution capability (`EthCall` / `EstimateCall`) is an oracle function, the
  tokio `timeout` race outcome is a parameter where a claim depends on it, and
  side effects on the shared statistics are threaded as values.
* Archive reads (`collect_s3_block`) perform file IO; they are modelled as an
  abstract map from height to optional block data, whose `none` covers the
  three soft-failure cases (missing file, decompression failure,
  deserialisation failure) that the source maps to `None`.
-/

namespace Nanoreth

/-- The modulus of Rust `u64` arithmetic. -/
def U64_MOD : ℕ := 2 ^ 64

/-- Rust `a.wrapping_sub b` on `u64` (release-mode semantics of `a - b`),
for `a b < 2 ^ 64`. -/
def wsub64 (a b : ℕ) : ℕ := (a + U64_MOD - b) % U64_MOD

/-- Model of Rust `x as u64` applied to a nonnegative `f64`: truncation toward
zero, saturating at `u64::MAX` (Rust float-to-integer `as` casts saturate).
The `f64` value itself is idealised as an exact rational. -/
def f64toU64 (q : ℚ) : ℕ := min q.floor.toNat (U64_MOD - 1)

/-! ## Chunked execution engine (`src/node/rpc/chunked_execution.rs`) -/

/-- `ChunkedExecutionConfig` from `chunked_execution.rs`. -/
structure ChunkedExecutionConfig where
  chunk_gas_limit : ℕ
  chunking_threshold : ℕ
  chunk_delay_ms : ℕ
  max_chunks : ℕ
  enable_progress_reporting : Bool
deriving DecidableEq, Repr

/-- `ChunkedExecutionConfig::default()`: 50M gas per chunk, chunking from
100M gas, 100 ms delay, at most 100 chunks. -/
def ChunkedExecutionConfig.default : ChunkedExecutionConfig where
  chunk_gas_limit := 50000000
  chunking_threshold := 100000000
  chunk_delay_ms := 100
  max_chunks := 100
  enable_progress_reporting := true

/-- `ChunkedExecutionEngine::should_use_chunking`:
`gas_limit.map_or(false, |gas| gas >= self.config.chunking_threshold)`. -/
def should_use_chunking (c : ChunkedExecutionConfig) (gas_limit : Option ℕ) : Bool :=
  match gas_limit with
  | none => false
  | some gas => decide (c.chunking_threshold ≤ gas)

/-- `ChunkedExecutionEngine::calculate_chunks`:
`((gas_limit + chunk_gas_limit - 1) / chunk_gas_limit).min(max_chunks)`,
with the `u64` addition wrapping modulo `2 ^ 64`. -/
def calculate_chunks (c : ChunkedExecutionConfig) (gas_limit : ℕ) : ℕ :=
  let chunks := (gas_limit + c.chunk_gas_limit - 1) % U64_MOD / c.chunk_gas_limit
  min chunks c.max_chunks

/-- The per-chunk gas grants produced by the loop in
`ChunkedExecutionEngine::chunked_call` (and identically in
`chunked_estimate_gas`): iterating `chunk_idx` over the given index list,
every chunk receives `chunk_gas_limit` except the one with
`chunk_idx == total_chunks - 1`, which receives `original_gas - processed_gas`
where `processed_gas` accumulates the grants so far. -/
def chunkGrantsAux (c : ChunkedExecutionConfig) (original_gas total_chunks : ℕ) :
    List ℕ → ℕ → List ℕ
  | [], _ => []
  | chunk_idx :: rest, processed_gas =>
    let chunk_gas :=
      if chunk_idx = total_chunks - 1 then original_gas - processed_gas
      else c.chunk_gas_limit
    chunk_gas :: chunkGrantsAux c original_gas total_chunks rest (processed_gas + chunk_gas)

/-- The full sequence of per-chunk gas grants for a request of `original_gas`:
the loop `for chunk_idx in 0..total_chunks` of `chunked_call`, starting from
`processed_gas = 0`. -/
def chunkGrants (c : ChunkedExecutionConfig) (original_gas : ℕ) : List ℕ :=
  chunkGrantsAux c original_gas (calculate_chunks c original_gas)
    (List.range (calculate_chunks c original_gas)) 0

/-! ## Adaptive timeout calculator and call dispatcher (`src/node/rpc/timeout.rs`) -/

/-- `TimeoutWrapper` from `rpc/timeout.rs`; durations are whole seconds
(the source only ever builds them with `Duration::from_secs` and reads them
with `as_secs`). -/
structure TimeoutWrapper where
  rpc_timeout : ℕ
  max_local_gas_limit : Option ℕ
  enable_progressive_timeout : Bool
  max_timeout : ℕ
  chunked_execution : ChunkedExecutionConfig
deriving DecidableEq, Repr

/-- `TimeoutWrapper::new`: progressive timeout enabled, 3600 s maximum,
default chunked-execution configuration. -/
def TimeoutWrapper.new (rpc_timeout_secs : ℕ) (max_local_gas_limit : Option ℕ) :
    TimeoutWrapper where
  rpc_timeout := rpc_timeout_secs
  max_local_gas_limit := max_local_gas_limit
  enable_progressive_timeout := true
  max_timeout := 3600
  chunked_execution := ChunkedExecutionConfig.default

/-- `TimeoutWrapper::calculate_timeout` (seconds).  The three branches mirror
the source; the two `as u64` casts are the saturating `f64toU64`, the `u64`
subtraction `max_timeout.as_secs() - base_scaled` is the wrapping `wsub64`,
and the final `u64` addition `base_scaled + additional` wraps modulo `2 ^ 64`
(release-mode overflow semantics).  The multiplication `rpc_timeout * 10` is
left exact: every theorem touching this branch assumes
`10 * rpc_timeout ≤ max_timeout < 2 ^ 64`, under which it cannot wrap. -/
def calculate_timeout (w : TimeoutWrapper) (gas_limit : Option ℕ) : ℕ :=
  if w.enable_progressive_timeout = false then w.rpc_timeout
  else
    let gas := gas_limit.getD 21000
    let timeout_secs :=
      if gas ≤ 1000000 then w.rpc_timeout
      else if gas ≤ 100000000 then
        let scale_factor : ℚ := ((gas : ℚ) - 1000000) / 99000000
        let multiplier : ℚ := 1 + scale_factor * 9
        f64toU64 ((w.rpc_timeout : ℚ) * multiplier)
      else
        let base_scaled := w.rpc_timeout * 10
        let scale_factor : ℚ := ((gas : ℚ) - 100000000) / 1900000000
        let additional := f64toU64 (((wsub64 w.max_timeout base_scaled : ℕ) : ℚ) * scale_factor)
        (base_scaled + additional) % U64_MOD
    min timeout_secs w.max_timeout

/-- `TimeoutWrapper::should_forward_call`: true iff both a local ceiling and a
declared gas are present and the gas exceeds the ceiling. -/
def should_forward_call (w : TimeoutWrapper) (gas_limit : Option ℕ) : Bool :=
  match w.max_local_gas_limit, gas_limit with
  | some max_local, some gas => decide (max_local < gas)
  | _, _ => false

/-- The JSON-RPC error object carried by every failure this layer produces. -/
structure ErrorObject where
  code : ℤ
  message : String
deriving DecidableEq, Repr

/-- `RPC_TIMEOUT_ERROR_CODE` from `rpc/timeout.rs`. -/
def RPC_TIMEOUT_ERROR_CODE : ℤ := -32603

/-- The gas-ceiling rejection error built in `call_with_timeout` and
`estimate_gas_with_timeout`. -/
def gasLimitExceededError : ErrorObject where
  code := RPC_TIMEOUT_ERROR_CODE
  message := "Gas limit too high for local execution. Enable --forward-call to handle high gas limit calls."

/-- Result of running the sequential chunk loop of `chunked_call` against the
execution oracle `exec`: the loop executes the grants in order, keeps only the
last chunk's result, aborts on the first failing chunk with an error naming
that chunk, and we additionally count how many underlying execution attempts
were made.  `acc` is the running `accumulated_result`, `executed` the attempt
count so far, `chunk_idx` the 1-based index used in the error message. -/
def runChunkLoop {α : Type} (exec : Option ℕ → Except String α) :
    List ℕ → α → ℕ → ℕ → Except ErrorObject α × ℕ
  | [], acc, _, executed => (Except.ok acc, executed)
  | chunk_gas :: rest, _, chunk_idx, executed =>
    match exec (some chunk_gas) with
    | Except.ok chunk_result =>
        runChunkLoop exec rest chunk_result (chunk_idx + 1) (executed + 1)
    | Except.error e =>
        (Except.error ⟨RPC_TIMEOUT_ERROR_CODE,
          "Chunk " ++ toString chunk_idx ++ " failed: " ++ e⟩, executed + 1)

/-- `ChunkedExecutionEngine::chunked_call`, as a pure function of the
execution oracle `exec` (the `EthCall` capability) and the request's declared
gas.  `empty` is `Bytes::new()`, the initial `accumulated_result`.  The second
component counts underlying execution attempts. -/
def chunked_call {α : Type} (c : ChunkedExecutionConfig)
    (exec : Option ℕ → Except String α) (empty : α) (gas : Option ℕ) :
    Except ErrorObject α × ℕ :=
  let original_gas := gas.getD 21000
  if should_use_chunking c (some original_gas) = false then
    match exec gas with
    | Except.ok v => (Except.ok v, 1)
    | Except.error e =>
        (Except.error ⟨RPC_TIMEOUT_ERROR_CODE, "Call failed: " ++ e⟩, 1)
  else
    runChunkLoop exec (chunkGrants c original_gas) empty 1 0

/-- The chunk loop of `chunked_estimate_gas`: per-chunk estimates are summed
into `total_estimated_gas` instead of discarded.  Attempt count threaded as in
`runChunkLoop`. -/
def runEstimateLoop (estimate : Option ℕ → Except String ℕ) :
    List ℕ → ℕ → ℕ → ℕ → Except ErrorObject ℕ × ℕ
  | [], total_estimated_gas, _, executed => (Except.ok total_estimated_gas, executed)
  | chunk_gas :: rest, total_estimated_gas, chunk_idx, executed =>
    match estimate (some chunk_gas) with
    | Except.ok chunk_estimate =>
        runEstimateLoop estimate rest (total_estimated_gas + chunk_estimate)
          (chunk_idx + 1) (executed + 1)
    | Except.error e =>
        (Except.error ⟨RPC_TIMEOUT_ERROR_CODE,
          "Chunk " ++ toString chunk_idx ++ " estimation failed: " ++ e⟩, executed + 1)

/-- `ChunkedExecutionEngine::chunked_estimate_gas` as a pure function of the
estimation oracle. -/
def chunked_estimate_gas (c : ChunkedExecutionConfig)
    (estimate : Option ℕ → Except String ℕ) (gas : Option ℕ) :
    Except ErrorObject ℕ × ℕ :=
  let original_gas := gas.getD 21000
  if should_use_chunking c (some original_gas) = false then
    match estimate gas with
    | Except.ok v => (Except.ok v, 1)
    | Except.error e =>
        (Except.error ⟨RPC_TIMEOUT_ERROR_CODE, "Gas estimation failed: " ++ e⟩, 1)
  else
    runEstimateLoop estimate (chunkGrants c original_gas) 0 1 0

/-- `TimeoutWrapper::call_with_timeout`, modelled up to (but not including)
the tokio deadline race: the gas-ceiling check, then selection between the
chunked and the direct execution path.  The oracle `exec` stands for the
`EthCall` capability; the second component counts how many times it is
invoked (the call-count spy of the specification). -/
def call_with_timeout {α : Type} (w : TimeoutWrapper)
    (exec : Option ℕ → Except String α) (empty : α) (gas : Option ℕ) :
    Except ErrorObject α × ℕ :=
  if should_forward_call w gas then
    (Except.error gasLimitExceededError, 0)
  else if should_use_chunking w.chunked_execution gas then
    chunked_call w.chunked_execution exec empty gas
  else
    match exec gas with
    | Except.ok v => (Except.ok v, 1)
    | Except.error e =>
        (Except.error ⟨RPC_TIMEOUT_ERROR_CODE, "Call execution failed: " ++ e⟩, 1)

/-- `TimeoutWrapper::estimate_gas_with_timeout`, modelled like
`call_with_timeout`. -/
def estimate_gas_with_timeout (w : TimeoutWrapper)
    (estimate : Option ℕ → Except String ℕ) (gas : Option ℕ) :
    Except ErrorObject ℕ × ℕ :=
  if should_forward_call w gas then
    (Except.error gasLimitExceededError, 0)
  else if should_use_chunking w.chunked_execution gas then
    chunked_estimate_gas w.chunked_execution estimate gas
  else
    match estimate gas with
    | Except.ok v => (Except.ok v, 1)
    | Except.error e =>
        (Except.error ⟨RPC_TIMEOUT_ERROR_CODE, "Gas estimation failed: " ++ e⟩, 1)

/-! ## Admission-controlled storage guard (`src/node/storage/timeout.rs`) -/

/-- `DatabaseStats`: the four process-wide counters.  The `AtomicU64`s are
idealised as unbounded naturals (wraparound after `2 ^ 64` operations is
unreachable in practice); `fetch_sub` on `active_connections` only ever runs
after a matching `fetch_add`, so truncated `ℕ` subtraction coincides with it. -/
structure DatabaseStats where
  active_connections : ℕ
  total_operations : ℕ
  timeout_operations : ℕ
  successful_operations : ℕ
deriving DecidableEq, Repr

def DatabaseStats.increment_active (s : DatabaseStats) : DatabaseStats :=
  { s with active_connections := s.active_connections + 1 }

def DatabaseStats.decrement_active (s : DatabaseStats) : DatabaseStats :=
  { s with active_connections := s.active_connections - 1 }

def DatabaseStats.increment_total (s : DatabaseStats) : DatabaseStats :=
  { s with total_operations := s.total_operations + 1 }

def DatabaseStats.increment_timeout (s : DatabaseStats) : DatabaseStats :=
  { s with timeout_operations := s.timeout_operations + 1 }

def DatabaseStats.increment_successful (s : DatabaseStats) : DatabaseStats :=
  { s with successful_operations := s.successful_operations + 1 }

def DatabaseStats.get_active_count (s : DatabaseStats) : ℕ :=
  s.active_connections

/-- `DatabaseTimeoutWrapper::can_start_operation`. -/
def can_start_operation (max_concurrent_operations : ℕ) (s : DatabaseStats) : Bool :=
  decide (s.get_active_count < max_concurrent_operations)

/-- `OperationGuard::new`: increments the active and total counters on
admission. -/
def OperationGuard.new (s : DatabaseStats) : DatabaseStats :=
  (s.increment_active).increment_total

/-- `Drop for OperationGuard`: decrements the active counter when the
operation's scope ends. -/
def OperationGuard.drop (s : DatabaseStats) : DatabaseStats :=
  s.decrement_active

/-- Outcome of racing the wrapped operation against the read timeout:
the operation completed with a value, completed with its own error, or the
deadline expired first. -/
inductive OpOutcome (β : Type) where
  | success (v : β)
  | failure
  | timedOut
deriving DecidableEq, Repr

/-- The caller-visible result of `execute_with_timeout`: the operation's
value, its own propagated error, the `WouldBlock` admission rejection, or the
`TimedOut` timeout error.  Rejection and timeout are distinct constructors,
mirroring the distinct `io::ErrorKind`s in the source. -/
inductive DbResult (β : Type) where
  | ok (v : β)
  | opError
  | admissionRejected
  | timedOut
deriving DecidableEq, Repr

/-- `DatabaseTimeoutWrapper::execute_with_timeout`, as a state machine over
`DatabaseStats`: the admission check, the guard acquisition, the race outcome
(with its success/timeout counter updates), and the guard drop at scope end.
Returns the result, the final statistics, and whether the wrapped operation
was started. -/
def execute_with_timeout {β : Type} (max_concurrent_operations : ℕ)
    (s : DatabaseStats) (outcome : OpOutcome β) :
    DbResult β × DatabaseStats × Bool :=
  if can_start_operation max_concurrent_operations s = false then
    (DbResult.admissionRejected, s, false)
  else
    let guard := OperationGuard.new s
    let step :=
      match outcome with
      | OpOutcome.success v => (DbResult.ok v, guard.increment_successful)
      | OpOutcome.failure => (DbResult.opError, guard)
      | OpOutcome.timedOut => (DbResult.timedOut, guard.increment_timeout)
    (step.1, OperationGuard.drop step.2, true)

/-- The implicit statistics invariant: every successful or timed-out
operation was counted in `total_operations` first. -/
def statsInvariant (s : DatabaseStats) : Prop :=
  s.successful_operations + s.timeout_operations ≤ s.total_operations

/-! ## Precompile replay cache (`crates/ethereum/evm/src/lib.rs`) -/

/-- External opaque data carried by a recorded precompile call; only its
plumbing matters here, so addresses, inputs and results are bare naturals. -/
abbrev Address := ℕ
abbrev ReadPrecompileInput := ℕ
abbrev ReadPrecompileResult := ℕ

abbrev PrecompileCalls :=
  List (Address × List (ReadPrecompileInput × ReadPrecompileResult))

/-- The in-process shared channel (`PrecompilesCache`,
a `Mutex<HashMap<u64, _>>`), as a map from height to optional entry. -/
abbrev PrecompilesCache := ℕ → Option PrecompileCalls

/-- `BlockAndReceipts`: the only archived field this core reads. -/
structure BlockAndReceipts where
  read_precompile_calls : PrecompileCalls

/-- `get_locally_sourced_precompiles_for_height`: `u_cache.remove(&height)`
under the lock — returns the entry at `height` (if any) and the channel with
that height removed. -/
def get_locally_sourced_precompiles_for_height (precompiles_cache : PrecompilesCache)
    (height : ℕ) : Option PrecompileCalls × PrecompilesCache :=
  (precompiles_cache height, fun h => if h = height then none else precompiles_cache h)

/-- `collect_block`: try the in-process channel first (consuming its entry),
then fall back to the archive.  `archive` abstracts `collect_s3_block`
(file IO); its `none` is any of the soft archive failures.  Returns the
collected block and the channel after the query. -/
def collect_block (archive : ℕ → Option BlockAndReceipts)
    (shared_state : Option PrecompilesCache) (height : ℕ) :
    Option BlockAndReceipts × Option PrecompilesCache :=
  match shared_state with
  | some cache =>
    match get_locally_sourced_precompiles_for_height cache height with
    | (some calls, cache') => (some ⟨calls⟩, some cache')
    | (none, cache') => (archive height, some cache')
  | none => (archive height, none)

/-- The precompile-resolution step of `HyperliquidEvmFactory::create_evm`:
when `collect_block` yields nothing the source `panic!`s (modelled as
`Except.error` carrying the panic message); otherwise the EVM context is
built from the block's recorded precompile calls. -/
def create_evm_precompiles (archive : ℕ → Option BlockAndReceipts)
    (shared_state : Option PrecompilesCache) (height : ℕ) :
    Except String PrecompileCalls :=
  match (collect_block archive shared_state height).1 with
  | some block => Except.ok block.read_precompile_calls
  | none => Except.error ("Failed to collect block at height " ++ toString height)

/-! ## Specification-side definitions

These transcribe the *specification's words* (spec.md §4.1, §8), to be
compared against the source-derived definitions above. -/

/-- The raw (unclamped) three-piece timeout schedule exactly as the
specification states it, in exact rational seconds. -/
def specRawBudget (B M : ℚ) (gas : ℕ) : ℚ :=
  if gas ≤ 1000000 then B
  else if gas ≤ 100000000 then
    B * (1 + 9 * (((gas : ℚ) - 1000000) / 99000000))
  else
    10 * B + (M - 10 * B) * (((gas : ℚ) - 100000000) / 1900000000)

/-- The specification's `timeout_for`: the schedule clamped into `[0, M]`
when progressive scaling is enabled, else always `B`; default gas 21000. -/
def spec_timeout_for (w : TimeoutWrapper) (gas_limit : Option ℕ) : ℚ :=
  if w.enable_progressive_timeout then
    max 0 (min (specRawBudget (w.rpc_timeout : ℚ) (w.max_timeout : ℚ) (gas_limit.getD 21000))
      (w.max_timeout : ℚ))
  else (w.rpc_timeout : ℚ)

/-! ## Helper lemmas -/

theorem f64toU64_eq_min (q : ℚ) : f64toU64 q = min ⌊q⌋₊ (U64_MOD - 1) := by
  rw [f64toU64, Rat.floor_def', ← Rat.floor_def, Int.floor_toNat]

/-- Below the saturation point the cast is the plain floor. -/
theorem f64toU64_eq (q : ℚ) (h : q ≤ ((U64_MOD - 1 : ℕ) : ℚ)) : f64toU64 q = ⌊q⌋₊ := by
  rw [f64toU64_eq_min]
  have h2 := Nat.floor_mono h
  rw [Nat.floor_natCast] at h2
  exact min_eq_left h2

theorem f64toU64_div (n d : ℕ) (h : n / d ≤ U64_MOD - 1) :
    f64toU64 ((n : ℚ) / (d : ℚ)) = n / d := by
  rw [f64toU64_eq_min, Rat.natFloor_natCast_div_natCast]
  exact min_eq_left h

theorem wsub64_eq {a b : ℕ} (hba : b ≤ a) (ha : a < U64_MOD) : wsub64 a b = a - b := by
  unfold wsub64
  have h1 : a + U64_MOD - b = (a - b) + U64_MOD := by omega
  rw [h1, Nat.add_mod_right, Nat.mod_eq_of_lt (by omega)]

/-- Closed form of the chunk loop on an index suffix: entering index `j` with
`processed_gas = j * chunk_gas_limit`, every index other than
`total_chunks - 1` is granted `chunk_gas_limit`, and index `total_chunks - 1`
is granted the remainder. -/
theorem chunkGrantsAux_range' (c : ChunkedExecutionConfig) (G n : ℕ) :
    ∀ (k j : ℕ), j + k = n →
      chunkGrantsAux c G n (List.range' j k) (j * c.chunk_gas_limit) =
        (List.range' j k).map
          (fun i => if i = n - 1 then G - (n - 1) * c.chunk_gas_limit
            else c.chunk_gas_limit) := by
  intro k
  induction k with
  | zero => intro j _; rfl
  | succ m ih =>
    intro j hj
    rw [List.range'_succ, List.map_cons, chunkGrantsAux]
    by_cases hlast : j = n - 1
    · have hm : m = 0 := by omega
      subst hm hlast
      simp [chunkGrantsAux]
    · simp only [if_neg hlast]
      have h1 : j * c.chunk_gas_limit + c.chunk_gas_limit = (j + 1) * c.chunk_gas_limit := by
        ring
      rw [h1, ih (j + 1) (by omega)]

/-- Closed form for the full grant sequence. -/
theorem chunkGrants_eq (c : ChunkedExecutionConfig) (G : ℕ) :
    chunkGrants c G =
      (List.range (calculate_chunks c G)).map
        (fun i => if i = calculate_chunks c G - 1 then
            G - (calculate_chunks c G - 1) * c.chunk_gas_limit
          else c.chunk_gas_limit) := by
  have h := chunkGrantsAux_range' c G (calculate_chunks c G) (calculate_chunks c G) 0 (by omega)
  rw [Nat.zero_mul] at h
  rw [chunkGrants, List.range_eq_range']
  exact h

/-- Without `u64` overflow in `gas_limit + chunk_gas_limit - 1`, the chunk
count is exactly `min ⌈G / L⌉ max_chunks` (with `⌈G / L⌉` as the rounded-up
natural division `(G + L - 1) / L`). -/
theorem calculate_chunks_eq (c : ChunkedExecutionConfig) (G : ℕ)
    (hOv : G + c.chunk_gas_limit - 1 < U64_MOD) :
    calculate_chunks c G = min ((G + c.chunk_gas_limit - 1) / c.chunk_gas_limit) c.max_chunks := by
  rw [calculate_chunks, Nat.mod_eq_of_lt hOv]

/-- The gas processed before the final chunk never exceeds the request. -/
theorem chunk_prefix_le (c : ChunkedExecutionConfig) (G : ℕ) (hL : 0 < c.chunk_gas_limit)
    (hOv : G + c.chunk_gas_limit - 1 < U64_MOD) :
    (calculate_chunks c G - 1) * c.chunk_gas_limit ≤ G := by
  rw [calculate_chunks_eq c G hOv]
  set L := c.chunk_gas_limit with hLdef
  set q := (G + L - 1) / L with hq
  set n := min q c.max_chunks with hn
  rcases Nat.eq_zero_or_pos n with h0 | h1
  · simp [h0]
  · have hnq : n ≤ q := Nat.min_le_left _ _
    have hql : q * L ≤ G + L - 1 := Nat.div_mul_le_self _ _
    have hnl : n * L ≤ q * L := Nat.mul_le_mul_right L hnq
    have hsplit : n * L = (n - 1) * L + L := by
      have hn1 : n - 1 + 1 = n := by omega
      calc n * L = (n - 1 + 1) * L := by rw [hn1]
        _ = (n - 1) * L + L := by ring
    omega

theorem sum_replicate_nat (k x : ℕ) : (List.replicate k x).sum = k * x := by
  induction k with
  | zero => simp
  | succ m ih =>
    rw [List.replicate_succ, List.sum_cons, ih]
    ring

/-- All grants before the final chunk equal `chunk_gas_limit`. -/
theorem chunkGrants_dropLast (c : ChunkedExecutionConfig) (G : ℕ) :
    (chunkGrants c G).dropLast =
      List.replicate (calculate_chunks c G - 1) c.chunk_gas_limit := by
  rw [chunkGrants_eq]
  cases hn : calculate_chunks c G with
  | zero => simp
  | succ m =>
    rw [List.range_succ, List.map_append, List.map_cons, List.map_nil,
      List.dropLast_concat, Nat.add_sub_cancel]
    have hcongr : ∀ i ∈ List.range m,
        (if i = m then G - m * c.chunk_gas_limit
          else c.chunk_gas_limit) = c.chunk_gas_limit := by
      intro i hi
      have hi' : i < m := List.mem_range.mp hi
      rw [if_neg (by omega)]
    rw [List.map_congr_left hcongr, List.map_const', List.length_range]

/-- The final chunk is granted the exact remainder. -/
theorem chunkGrants_getLast (c : ChunkedExecutionConfig) (G : ℕ)
    (h1 : 0 < calculate_chunks c G) :
    (chunkGrants c G).getLast? =
      some (G - (calculate_chunks c G - 1) * c.chunk_gas_limit) := by
  rw [chunkGrants_eq]
  obtain ⟨m, hm⟩ : ∃ m, calculate_chunks c G = m + 1 :=
    ⟨calculate_chunks c G - 1, by omega⟩
  rw [hm, List.range_succ, List.map_append, List.map_cons, List.map_nil,
    List.getLast?_concat, Nat.add_sub_cancel, if_pos rfl]

/-- The granted chunk gas always sums to the original request. -/
theorem chunkGrants_sum (c : ChunkedExecutionConfig) (G : ℕ)
    (hL : 0 < c.chunk_gas_limit) (hmax : 0 < c.max_chunks)
    (hOv : G + c.chunk_gas_limit - 1 < U64_MOD) :
    (chunkGrants c G).sum = G := by
  rcases Nat.eq_zero_or_pos G with hG | hG
  · subst hG
    have hq : (0 + c.chunk_gas_limit - 1) / c.chunk_gas_limit = 0 :=
      Nat.div_eq_of_lt (by omega)
    have hn : calculate_chunks c 0 = 0 := by
      rw [calculate_chunks_eq c 0 hOv, hq]
      simp
    rw [chunkGrants_eq, hn]
    simp
  · have hq1 : 1 ≤ (G + c.chunk_gas_limit - 1) / c.chunk_gas_limit :=
      (Nat.le_div_iff_mul_le hL).mpr (by omega)
    have hpos : 0 < calculate_chunks c G := by
      rw [calculate_chunks_eq c G hOv]
      exact lt_min hq1 hmax
    have hpre := chunk_prefix_le c G hL hOv
    rw [chunkGrants_eq]
    obtain ⟨m, hm⟩ : ∃ m, calculate_chunks c G = m + 1 :=
      ⟨calculate_chunks c G - 1, by omega⟩
    rw [hm, Nat.add_sub_cancel] at hpre
    rw [hm]
    rw [List.range_succ, List.map_append, List.map_cons, List.map_nil,
      List.sum_append, List.sum_cons, List.sum_nil, Nat.add_sub_cancel]
    have hcongr : ∀ i ∈ List.range m,
        (if i = m then G - m * c.chunk_gas_limit
          else c.chunk_gas_limit) = c.chunk_gas_limit := by
      intro i hi
      have hi' : i < m := List.mem_range.mp hi
      rw [if_neg (by omega)]
    rw [List.map_congr_left hcongr, List.map_const', List.length_range,
      sum_replicate_nat, if_pos rfl]
    omega

/-- A list of constant entries is a `≤`-chain. -/
theorem chain'_replicate_le (k x : ℕ) : List.Chain' (· ≤ ·) (List.replicate k x) := by
  induction k with
  | zero => simp
  | succ m ih =>
    cases m with
    | zero => simp
    | succ m' =>
      rw [List.replicate_succ, List.replicate_succ, List.chain'_cons]
      rw [List.replicate_succ] at ih
      exact ⟨le_refl x, ih⟩

/-! ## Claim C3 -/

/-- **C3, counterexample**: with the default configuration and requested gas
5,000,000,001 the rounded-up chunk count (101) exceeds `max_chunks` (100), so
the plan is capped at 100 chunks — yet the granted gas sums to the full
5,000,000,001, not to the clipped `chunk_gas_limit * max_chunks =
5,000,000,000` that the claim asserts. -/
theorem chunk_total_clipped_cex :
    (5000000001 + 50000000 - 1) / 50000000 = 101 ∧
    calculate_chunks ChunkedExecutionConfig.default 5000000001 = 100 ∧
    (chunkGrants ChunkedExecutionConfig.default 5000000001).sum = 5000000001 ∧
    (chunkGrants ChunkedExecutionConfig.default 5000000001).sum ≠ 50000000 * 100 := by
  have hsum : (chunkGrants ChunkedExecutionConfig.default 5000000001).sum = 5000000001 :=
    chunkGrants_sum ChunkedExecutionConfig.default 5000000001
      (by decide) (by decide) (by decide)
  exact ⟨by decide, by decide, hsum, by rw [hsum]; decide⟩

/-- **C3** (amended): for requested gas `G` at or above the chunking
threshold (positive threshold, per-chunk limit and chunk cap; no u64 overflow
in the rounded-up division), the plan has exactly
`min ((G + chunk_gas_limit - 1) / chunk_gas_limit) max_chunks` chunks; every
chunk except the last is granted `chunk_gas_limit` and the last chunk is
granted the exact remainder, so the sum of granted per-chunk gas equals `G`
in all cases — when the count is capped by `max_chunks` the final chunk
absorbs the excess, and the total is *not* clipped to
`chunk_gas_limit * max_chunks`. -/
theorem chunk_plan_grants (c : ChunkedExecutionConfig) (G : ℕ)
    (hthr0 : 0 < c.chunking_threshold) (hthr : c.chunking_threshold ≤ G)
    (hL : 0 < c.chunk_gas_limit) (hmax : 0 < c.max_chunks)
    (hOv : G + c.chunk_gas_limit - 1 < U64_MOD) :
    (chunkGrants c G).length =
      min ((G + c.chunk_gas_limit - 1) / c.chunk_gas_limit) c.max_chunks ∧
    (chunkGrants c G).dropLast =
      List.replicate (calculate_chunks c G - 1) c.chunk_gas_limit ∧
    (chunkGrants c G).getLast? =
      some (G - (calculate_chunks c G - 1) * c.chunk_gas_limit) ∧
    (chunkGrants c G).sum = G := by
  have hG : 0 < G := lt_of_lt_of_le hthr0 hthr
  have hq1 : 1 ≤ (G + c.chunk_gas_limit - 1) / c.chunk_gas_limit :=
    (Nat.le_div_iff_mul_le hL).mpr (by omega)
  have hpos : 0 < calculate_chunks c G := by
    rw [calculate_chunks_eq c G hOv]
    exact lt_min hq1 hmax
  refine ⟨?_, chunkGrants_dropLast c G, chunkGrants_getLast c G hpos,
    chunkGrants_sum c G hL hmax hOv⟩
  rw [chunkGrants_eq, List.length_map, List.length_range, calculate_chunks_eq c G hOv]

/-- **C3, witness**: default configuration, requested gas 150,000,000:
three chunks, grants 50M / 50M / 50M, summing to the request. -/
theorem chunk_plan_grants_witness :
    (chunkGrants ChunkedExecutionConfig.default 150000000).length =
      min ((150000000 + 50000000 - 1) / 50000000) 100 ∧
    (chunkGrants ChunkedExecutionConfig.default 150000000).dropLast =
      List.replicate (calculate_chunks ChunkedExecutionConfig.default 150000000 - 1) 50000000 ∧
    (chunkGrants ChunkedExecutionConfig.default 150000000).getLast? =
      some (150000000 -
        (calculate_chunks ChunkedExecutionConfig.default 150000000 - 1) * 50000000) ∧
    (chunkGrants ChunkedExecutionConfig.default 150000000).sum = 150000000 :=
  chunk_plan_grants ChunkedExecutionConfig.default 150000000
    (by decide) (by decide) (by decide) (by decide) (by decide)

/-! ## Claim C7 -/

/-- **C7, counterexample**: default configuration, requested gas 120,000,000
(at or above the 100M chunking threshold): the grants are
`[50M, 50M, 20M]` — the final remainder chunk is *smaller* than its
predecessors, so the grant sequence is not monotonically non-decreasing. -/
theorem chunk_grants_not_monotone_cex :
    chunkGrants ChunkedExecutionConfig.default 120000000 =
      [50000000, 50000000, 20000000] ∧
    ¬ List.Chain' (· ≤ ·) (chunkGrants ChunkedExecutionConfig.default 120000000) := by
  have h : chunkGrants ChunkedExecutionConfig.default 120000000 =
      [50000000, 50000000, 20000000] := by decide
  refine ⟨h, ?_⟩
  rw [h]
  norm_num [List.chain'_cons]

/-- **C7** (amended): the per-chunk gas grants are constant — all equal to
`chunk_gas_limit` — on every chunk before the last, hence monotonically
non-decreasing on that prefix; the full sequence need not be non-decreasing
because the final chunk's exact-remainder grant can be smaller than
`chunk_gas_limit`. -/
theorem chunk_grants_constant_before_last (c : ChunkedExecutionConfig) (G : ℕ) :
    List.Chain' (· ≤ ·) ((chunkGrants c G).dropLast) ∧
    ∀ g ∈ (chunkGrants c G).dropLast, g = c.chunk_gas_limit := by
  rw [chunkGrants_dropLast]
  exact ⟨chain'_replicate_le _ _, fun g hg => List.eq_of_mem_replicate hg⟩

/-- Evaluation of the middle timeout branch (1M < gas ≤ 100M) as a natural
division; the `10 × base < 2 ^ 64` bound keeps the cast below saturation. -/
theorem calculate_timeout_mid (w : TimeoutWrapper) (gas : ℕ)
    (hen : w.enable_progressive_timeout = true) (hB : 10 * w.rpc_timeout < U64_MOD)
    (h1 : 1000000 < gas) (h2 : gas ≤ 100000000) :
    calculate_timeout w (some gas) =
      min (w.rpc_timeout * (99000000 + (gas - 1000000) * 9) / 99000000) w.max_timeout := by
  simp only [calculate_timeout, hen, Option.getD_some]
  rw [if_neg (by simp), if_neg (by omega), if_pos h2]
  congr 1
  have hg : ((gas - 1000000 : ℕ) : ℚ) = (gas : ℚ) - 1000000 := by
    push_cast [Nat.cast_sub (le_of_lt h1)]
    ring
  have harg : ((w.rpc_timeout : ℚ)) * (1 + ((gas : ℚ) - 1000000) / 99000000 * 9) =
      ((w.rpc_timeout * (99000000 + (gas - 1000000) * 9) : ℕ) : ℚ) /
        ((99000000 : ℕ) : ℚ) := by
    push_cast [hg]
    field_simp
  have hnum : w.rpc_timeout * (99000000 + (gas - 1000000) * 9) ≤
      10 * w.rpc_timeout * 99000000 := by
    have h9 : 99000000 + (gas - 1000000) * 9 ≤ 990000000 := by omega
    calc w.rpc_timeout * (99000000 + (gas - 1000000) * 9)
        ≤ w.rpc_timeout * 990000000 := Nat.mul_le_mul_left _ h9
      _ = 10 * w.rpc_timeout * 99000000 := by ring
  have hbound : w.rpc_timeout * (99000000 + (gas - 1000000) * 9) / 99000000 ≤
      U64_MOD - 1 := by
    have hdiv := Nat.div_le_div_right (c := 99000000) hnum
    rw [Nat.mul_div_cancel _ (by norm_num)] at hdiv
    omega
  rw [harg, f64toU64_div _ _ hbound]

/-! ## Claim C2 -/

/-- **C2, counterexample**: with the default policy (base 30 s, max 3600 s,
progressive scaling on) and gas 50,000,000, the code computes 163 s (the f64
budget truncated by the `as u64` cast), while the claim's exact schedule
gives `30 × (1 + 9 × 49/99) = 1800/11 ≈ 163.64` s — the two differ. -/
theorem timeout_not_exact_schedule_cex :
    ((calculate_timeout (TimeoutWrapper.new 30 none) (some 50000000) : ℕ) : ℚ) ≠
      spec_timeout_for (TimeoutWrapper.new 30 none) (some 50000000) := by
  have hcalc : calculate_timeout (TimeoutWrapper.new 30 none) (some 50000000) = 163 := by
    rw [calculate_timeout_mid (TimeoutWrapper.new 30 none) 50000000 rfl (by decide)
      (by norm_num) (by norm_num)]
    norm_num [TimeoutWrapper.new]
  have hspec : spec_timeout_for (TimeoutWrapper.new 30 none) (some 50000000) =
      1800 / 11 := by
    rw [spec_timeout_for,
      if_pos (show (TimeoutWrapper.new 30 none).enable_progressive_timeout = true from rfl)]
    rw [specRawBudget, if_neg (by norm_num), if_pos (by norm_num)]
    rw [show ((TimeoutWrapper.new 30 none).rpc_timeout : ℚ) = 30 from by norm_num [TimeoutWrapper.new]]
    rw [show ((TimeoutWrapper.new 30 none).max_timeout : ℚ) = 3600 from by norm_num [TimeoutWrapper.new]]
    rw [show ((Option.getD (some 50000000) 21000 : ℕ) : ℚ) = 50000000 from by norm_num]
    rw [min_eq_left (by norm_num), max_eq_right (by norm_num)]
    norm_num
  rw [hcalc, hspec]
  norm_num

/-- **C2** (amended): for every policy with
`10 × base_timeout ≤ max_timeout < 2 ^ 64` and every requested gas up to
2,000,000,000 — the upper end of the specification's interpolation range —
`timeout_for(g)` equals the specification's three-piece schedule *truncated
to whole seconds* (the `f64` budget is cast with `as u64`) and clamped above
by the maximum: `min ⌊schedule(g)⌋ max_timeout`; when progressive scaling is
disabled the budget is always the base timeout.  Beyond 2B gas the final
`u64` addition in the high-gas branch can wrap, so the schedule shape is not
guaranteed there. -/
theorem calculate_timeout_floor_spec (w : TimeoutWrapper) (gas_limit : Option ℕ)
    (h10 : 10 * w.rpc_timeout ≤ w.max_timeout) (hM : w.max_timeout < U64_MOD)
    (hg : gas_limit.getD 21000 ≤ 2000000000) :
    calculate_timeout w gas_limit =
      if w.enable_progressive_timeout then
        min (Nat.floor (specRawBudget (w.rpc_timeout : ℚ) (w.max_timeout : ℚ)
          (gas_limit.getD 21000))) w.max_timeout
      else w.rpc_timeout := by
  cases hen : w.enable_progressive_timeout with
  | false => simp [calculate_timeout, hen]
  | true =>
    simp only [calculate_timeout, hen, if_true, if_neg (by simp : ¬(true = false))]
    set gas := gas_limit.getD 21000 with hgas
    have hMle : ((w.max_timeout : ℕ) : ℚ) ≤ ((U64_MOD - 1 : ℕ) : ℚ) :=
      Nat.cast_le.mpr (by omega)
    have h10q : 10 * (w.rpc_timeout : ℚ) ≤ (w.max_timeout : ℚ) := by
      exact_mod_cast h10
    have hB0 : (0 : ℚ) ≤ (w.rpc_timeout : ℚ) := Nat.cast_nonneg _
    by_cases hg1 : gas ≤ 1000000
    · rw [specRawBudget, if_pos hg1, if_pos hg1, Nat.floor_natCast]
    · by_cases hg2 : gas ≤ 100000000
      · have hs0 : (0 : ℚ) ≤ ((gas : ℚ) - 1000000) / 99000000 := by
          apply div_nonneg _ (by norm_num)
          have : (1000000 : ℚ) ≤ (gas : ℚ) := by
            exact_mod_cast le_of_lt (by omega : 1000000 < gas)
          linarith
        have hs1 : ((gas : ℚ) - 1000000) / 99000000 ≤ 1 := by
          rw [div_le_one (by norm_num)]
          have : (gas : ℚ) ≤ 100000000 := by exact_mod_cast hg2
          linarith
        have hval : (w.rpc_timeout : ℚ) * (1 + ((gas : ℚ) - 1000000) / 99000000 * 9) ≤
            ((U64_MOD - 1 : ℕ) : ℚ) := by
          have hmul : (w.rpc_timeout : ℚ) * (1 + ((gas : ℚ) - 1000000) / 99000000 * 9) ≤
              (w.rpc_timeout : ℚ) * 10 :=
            mul_le_mul_of_nonneg_left (by linarith) hB0
          linarith
        have harg : (w.rpc_timeout : ℚ) * (1 + ((gas : ℚ) - 1000000) / 99000000 * 9) =
            (w.rpc_timeout : ℚ) * (1 + 9 * (((gas : ℚ) - 1000000) / 99000000)) := by
          ring
        rw [specRawBudget, if_neg hg1, if_pos hg2, if_neg hg1, if_pos hg2,
          f64toU64_eq _ hval, harg]
      · have hws : wsub64 w.max_timeout (w.rpc_timeout * 10) =
            w.max_timeout - w.rpc_timeout * 10 := wsub64_eq (by omega) hM
        have hcast : ((w.max_timeout - w.rpc_timeout * 10 : ℕ) : ℚ) =
            (w.max_timeout : ℚ) - 10 * (w.rpc_timeout : ℚ) := by
          push_cast [Nat.cast_sub (by omega : w.rpc_timeout * 10 ≤ w.max_timeout)]
          ring
        have hgq : (100000000 : ℚ) ≤ (gas : ℚ) := by
          exact_mod_cast le_of_lt (by omega : 100000000 < gas)
        have hs0 : (0 : ℚ) ≤ ((gas : ℚ) - 100000000) / 1900000000 :=
          div_nonneg (by linarith) (by norm_num)
        have hs1 : ((gas : ℚ) - 100000000) / 1900000000 ≤ 1 := by
          rw [div_le_one (by norm_num)]
          have : (gas : ℚ) ≤ 2000000000 := by exact_mod_cast hg
          linarith
        have hd0 : (0 : ℚ) ≤ ((w.max_timeout - w.rpc_timeout * 10 : ℕ) : ℚ) :=
          Nat.cast_nonneg _
        have hX0 : (0 : ℚ) ≤ ((w.max_timeout - w.rpc_timeout * 10 : ℕ) : ℚ) *
            (((gas : ℚ) - 100000000) / 1900000000) := mul_nonneg hd0 hs0
        have hX1 : ((w.max_timeout - w.rpc_timeout * 10 : ℕ) : ℚ) *
            (((gas : ℚ) - 100000000) / 1900000000) ≤
            ((w.max_timeout - w.rpc_timeout * 10 : ℕ) : ℚ) :=
          mul_le_of_le_one_right hd0 hs1
        have hXle : ((w.max_timeout - w.rpc_timeout * 10 : ℕ) : ℚ) *
            (((gas : ℚ) - 100000000) / 1900000000) ≤ ((U64_MOD - 1 : ℕ) : ℚ) := by
          have h2 : ((w.max_timeout - w.rpc_timeout * 10 : ℕ) : ℚ) ≤
              ((U64_MOD - 1 : ℕ) : ℚ) := Nat.cast_le.mpr (by omega)
          linarith
        have hfloorle : ⌊((w.max_timeout - w.rpc_timeout * 10 : ℕ) : ℚ) *
            (((gas : ℚ) - 100000000) / 1900000000)⌋₊ ≤
            w.max_timeout - w.rpc_timeout * 10 := by
          have h3 := Nat.floor_mono hX1
          rwa [Nat.floor_natCast] at h3
        have hnw : w.rpc_timeout * 10 + ⌊((w.max_timeout - w.rpc_timeout * 10 : ℕ) : ℚ) *
            (((gas : ℚ) - 100000000) / 1900000000)⌋₊ < U64_MOD := by
          omega
        have harg : 10 * (w.rpc_timeout : ℚ) + ((w.max_timeout : ℚ) - 10 * (w.rpc_timeout : ℚ)) *
              (((gas : ℚ) - 100000000) / 1900000000) =
            ((w.max_timeout - w.rpc_timeout * 10 : ℕ) : ℚ) *
              (((gas : ℚ) - 100000000) / 1900000000) + ((w.rpc_timeout * 10 : ℕ) : ℚ) := by
          rw [hcast]
          push_cast
          ring
        rw [specRawBudget, if_neg hg1, if_neg hg2, if_neg hg1, if_neg hg2, hws,
          f64toU64_eq _ hXle, Nat.mod_eq_of_lt hnw, harg]
        congr 1
        rw [Nat.floor_add_nat hX0]
        omega

/-- **C2, witness**: the amended schedule evaluated for the default 30 s /
3600 s policy at gas 50,000,000. -/
theorem calculate_timeout_floor_spec_witness :
    10 * (TimeoutWrapper.new 30 none).rpc_timeout ≤ (TimeoutWrapper.new 30 none).max_timeout ∧
    (some 50000000 : Option ℕ).getD 21000 ≤ 2000000000 ∧
    calculate_timeout (TimeoutWrapper.new 30 none) (some 50000000) =
      if (TimeoutWrapper.new 30 none).enable_progressive_timeout then
        min (Nat.floor (specRawBudget ((TimeoutWrapper.new 30 none).rpc_timeout : ℚ)
          ((TimeoutWrapper.new 30 none).max_timeout : ℚ) ((some 50000000).getD 21000)))
          (TimeoutWrapper.new 30 none).max_timeout
      else (TimeoutWrapper.new 30 none).rpc_timeout :=
  ⟨by decide, by decide,
    calculate_timeout_floor_spec (TimeoutWrapper.new 30 none) (some 50000000)
      (by decide) (by decide) (by decide)⟩

/-! ## Claim C10 -/

/-- **C10**: for every policy with `max_timeout ≥ 10 × base_timeout` (and
`max_timeout` in `u64` range), the unsigned subtraction
`max_timeout − 10 × base_timeout` in the high-gas branch does not wrap, and
the computed budget never exceeds `max_timeout` for any requested gas. -/
theorem timeout_budget_bounded (w : TimeoutWrapper)
    (h10 : 10 * w.rpc_timeout ≤ w.max_timeout) (hM : w.max_timeout < U64_MOD) :
    wsub64 w.max_timeout (w.rpc_timeout * 10) = w.max_timeout - w.rpc_timeout * 10 ∧
    ∀ gas_limit, calculate_timeout w gas_limit ≤ w.max_timeout := by
  refine ⟨wsub64_eq (by omega) hM, fun gas_limit => ?_⟩
  rw [calculate_timeout]
  by_cases hen : w.enable_progressive_timeout = false
  · rw [if_pos hen]
    omega
  · rw [if_neg hen]
    exact Nat.min_le_right _ _

/-- **C10, witness**: default policy (30 s base, 3600 s max), gas
2,000,000,001. -/
theorem timeout_budget_bounded_witness :
    wsub64 (TimeoutWrapper.new 30 none).max_timeout
        ((TimeoutWrapper.new 30 none).rpc_timeout * 10) =
      (TimeoutWrapper.new 30 none).max_timeout -
        (TimeoutWrapper.new 30 none).rpc_timeout * 10 ∧
    calculate_timeout (TimeoutWrapper.new 30 none) (some 2000000001) ≤
      (TimeoutWrapper.new 30 none).max_timeout :=
  ⟨(timeout_budget_bounded (TimeoutWrapper.new 30 none) (by decide) (by decide)).1,
    (timeout_budget_bounded (TimeoutWrapper.new 30 none) (by decide) (by decide)).2
      (some 2000000001)⟩

/-! ## Claim C5 -/

/-- **C5**: when a maximum local gas limit is configured and the declared gas
exceeds it, both `call_with_timeout` and `estimate_gas_with_timeout` fail
immediately with the gas-limit-exceeded error — whose message instructs the
caller to enable forwarding — and the underlying execution capability is
never invoked (attempt count 0). -/
theorem gas_ceiling_rejection {α : Type} (w : TimeoutWrapper)
    (exec : Option ℕ → Except String α) (empty : α)
    (estimate : Option ℕ → Except String ℕ) (m g : ℕ)
    (hm : w.max_local_gas_limit = some m) (hg : m < g) :
    call_with_timeout w exec empty (some g) = (Except.error gasLimitExceededError, 0) ∧
    estimate_gas_with_timeout w estimate (some g) = (Except.error gasLimitExceededError, 0) ∧
    gasLimitExceededError.message =
      "Gas limit too high for local execution. Enable --forward-call to handle high gas limit calls." := by
  have hf : should_forward_call w (some g) = true := by
    simp [should_forward_call, hm, hg]
  refine ⟨?_, ?_, rfl⟩
  · rw [call_with_timeout, if_pos hf]
  · rw [estimate_gas_with_timeout, if_pos hf]

/-- **C5, witness**: ceiling 1,000,000, declared gas 1,000,001: both entry
points reject with the forwarding error and zero execution attempts. -/
theorem gas_ceiling_rejection_witness :
    call_with_timeout (TimeoutWrapper.new 30 (some 1000000)) (fun _ => Except.ok (0 : ℕ)) 0
        (some 1000001) = (Except.error gasLimitExceededError, 0) ∧
    estimate_gas_with_timeout (TimeoutWrapper.new 30 (some 1000000))
        (fun _ => Except.ok 0) (some 1000001) = (Except.error gasLimitExceededError, 0) := by
  have h := gas_ceiling_rejection (TimeoutWrapper.new 30 (some 1000000))
    (fun _ => Except.ok (0 : ℕ)) 0 (fun _ => Except.ok 0) 1000000 1000001 rfl (by decide)
  exact ⟨h.1, h.2.1⟩

/-! ## Claim C8 -/

/-- **C8**: a request with no declared gas is never rejected by the
gas-ceiling check (`should_forward_call` is `false` whatever the configured
ceiling, including ceilings below 21,000); the 21,000-gas default does apply
to the timeout computation, and — whenever the chunking threshold exceeds
21,000 — the chunking decision agrees with treating the absent gas as
21,000. -/
theorem absent_gas_not_rejected (w : TimeoutWrapper)
    (hthr : 21000 < w.chunked_execution.chunking_threshold) :
    should_forward_call w none = false ∧
    calculate_timeout w none = calculate_timeout w (some 21000) ∧
    should_use_chunking w.chunked_execution none =
      should_use_chunking w.chunked_execution (some 21000) := by
  refine ⟨?_, ?_, ?_⟩
  · rcases hw : w.max_local_gas_limit with _ | m <;> simp [should_forward_call, hw]
  · simp only [calculate_timeout, Option.getD_none, Option.getD_some]
  · have hnot : ¬ (w.chunked_execution.chunking_threshold ≤ 21000) := by omega
    simp [should_use_chunking, hnot]

/-- **C8, witness**: ceiling 20,000 (below the 21,000 default), absent gas:
not rejected; timeout and chunking treat the request as 21,000 gas. -/
theorem absent_gas_not_rejected_witness :
    should_forward_call (TimeoutWrapper.new 30 (some 20000)) none = false ∧
    calculate_timeout (TimeoutWrapper.new 30 (some 20000)) none =
      calculate_timeout (TimeoutWrapper.new 30 (some 20000)) (some 21000) ∧
    should_use_chunking (TimeoutWrapper.new 30 (some 20000)).chunked_execution none =
      should_use_chunking (TimeoutWrapper.new 30 (some 20000)).chunked_execution (some 21000) :=
  absent_gas_not_rejected (TimeoutWrapper.new 30 (some 20000)) (by decide)

/-! ## Claim C4 -/

/-- **C4**: with concurrency ceiling `N`, an operation attempted while the
active count has reached `N` is rejected without the wrapped operation being
started (state unchanged, `started = false`), with an error distinct from the
timeout error; an admitted operation increments the active and total counters
(via the guard), the active counter is back to its pre-call value when the
scope ends — whatever the outcome (success, failure, or timeout) — and a new
operation can then be admitted. -/
theorem admission_guard_discipline {β : Type} (max_concurrent_operations : ℕ)
    (s : DatabaseStats) (outcome : OpOutcome β) :
    (max_concurrent_operations ≤ s.active_connections →
      execute_with_timeout max_concurrent_operations s outcome =
        (DbResult.admissionRejected, s, false)) ∧
    (DbResult.admissionRejected : DbResult β) ≠ DbResult.timedOut ∧
    (s.active_connections < max_concurrent_operations →
      (execute_with_timeout max_concurrent_operations s outcome).2.2 = true ∧
      (OperationGuard.new s).active_connections = s.active_connections + 1 ∧
      (OperationGuard.new s).total_operations = s.total_operations + 1 ∧
      (execute_with_timeout max_concurrent_operations s outcome).2.1.active_connections =
        s.active_connections ∧
      can_start_operation max_concurrent_operations
        (execute_with_timeout max_concurrent_operations s outcome).2.1 = true) := by
  refine ⟨fun hfull => ?_, by simp, fun hadm => ?_⟩
  · rw [execute_with_timeout, if_pos ?_]
    simp [can_start_operation, DatabaseStats.get_active_count]
    omega
  · have hcan : can_start_operation max_concurrent_operations s = true := by
      simp [can_start_operation, DatabaseStats.get_active_count, hadm]
    rw [execute_with_timeout, if_neg (by simp [hcan])]
    cases outcome <;>
      simp [OperationGuard.new, OperationGuard.drop, DatabaseStats.increment_active,
        DatabaseStats.increment_total, DatabaseStats.increment_successful,
        DatabaseStats.increment_timeout, DatabaseStats.decrement_active,
        can_start_operation, DatabaseStats.get_active_count, hadm]

/-- **C4, witness**: ceiling 1 — an attempt with one operation already active
is rejected and leaves the state untouched; from an idle state an admitted
operation returns the active count to 0 and admission is possible again. -/
theorem admission_guard_discipline_witness :
    execute_with_timeout 1 (DatabaseStats.mk 1 0 0 0) (OpOutcome.success (0 : ℕ)) =
      (DbResult.admissionRejected, DatabaseStats.mk 1 0 0 0, false) ∧
    (execute_with_timeout 1 (DatabaseStats.mk 0 0 0 0)
      (OpOutcome.success (0 : ℕ))).2.1.active_connections = 0 ∧
    can_start_operation 1 (execute_with_timeout 1 (DatabaseStats.mk 0 0 0 0)
      (OpOutcome.success (0 : ℕ))).2.1 = true :=
  ⟨(admission_guard_discipline 1 (DatabaseStats.mk 1 0 0 0)
      (OpOutcome.success (0 : ℕ))).1 (by decide),
   ((admission_guard_discipline 1 (DatabaseStats.mk 0 0 0 0)
      (OpOutcome.success (0 : ℕ))).2.2 (by decide)).2.2.2.1,
   ((admission_guard_discipline 1 (DatabaseStats.mk 0 0 0 0)
      (OpOutcome.success (0 : ℕ))).2.2 (by decide)).2.2.2.2⟩

/-! ## Claim C9 -/

/-- **C9**: the statistics invariant
`successful_operations + timeout_operations ≤ total_operations` is preserved
by every guarded operation; an admitted operation increments the total
exactly once and then exactly one of the successful (on success) or timeout
(on expiry) counters — an underlying failure increments neither. -/
theorem stats_invariant_preserved {β : Type} (max_concurrent_operations : ℕ)
    (s : DatabaseStats) (outcome : OpOutcome β) (hInv : statsInvariant s) :
    statsInvariant (execute_with_timeout max_concurrent_operations s outcome).2.1 ∧
    (s.active_connections < max_concurrent_operations →
      (execute_with_timeout max_concurrent_operations s outcome).2.1.total_operations =
        s.total_operations + 1 ∧
      (outcome = OpOutcome.failure →
        (execute_with_timeout max_concurrent_operations s outcome).2.1.successful_operations =
          s.successful_operations ∧
        (execute_with_timeout max_concurrent_operations s outcome).2.1.timeout_operations =
          s.timeout_operations) ∧
      (∀ v, outcome = OpOutcome.success v →
        (execute_with_timeout max_concurrent_operations s outcome).2.1.successful_operations =
          s.successful_operations + 1 ∧
        (execute_with_timeout max_concurrent_operations s outcome).2.1.timeout_operations =
          s.timeout_operations) ∧
      (outcome = OpOutcome.timedOut →
        (execute_with_timeout max_concurrent_operations s outcome).2.1.timeout_operations =
          s.timeout_operations + 1 ∧
        (execute_with_timeout max_concurrent_operations s outcome).2.1.successful_operations =
          s.successful_operations)) := by
  rw [execute_with_timeout]
  by_cases hrej : can_start_operation max_concurrent_operations s = false
  · rw [if_pos hrej]
    refine ⟨hInv, fun hlt => ?_⟩
    exfalso
    simp [can_start_operation, DatabaseStats.get_active_count] at hrej
    omega
  · rw [if_neg hrej]
    unfold statsInvariant at hInv ⊢
    cases outcome <;>
      simp [OperationGuard.new, OperationGuard.drop, DatabaseStats.increment_active,
        DatabaseStats.increment_total, DatabaseStats.increment_successful,
        DatabaseStats.increment_timeout, DatabaseStats.decrement_active] <;>
      omega

/-- **C9, witness**: a state with 2 successes and 1 timeout out of 5 total
operations; an admitted successful operation takes the total to 6 and keeps
the invariant. -/
theorem stats_invariant_preserved_witness :
    statsInvariant (DatabaseStats.mk 0 5 1 2) ∧
    statsInvariant (execute_with_timeout 1 (DatabaseStats.mk 0 5 1 2)
      (OpOutcome.success (7 : ℕ))).2.1 ∧
    (execute_with_timeout 1 (DatabaseStats.mk 0 5 1 2)
      (OpOutcome.success (7 : ℕ))).2.1.total_operations = 5 + 1 :=
  ⟨by norm_num [statsInvariant],
   (stats_invariant_preserved 1 (DatabaseStats.mk 0 5 1 2)
     (OpOutcome.success (7 : ℕ)) (by norm_num [statsInvariant])).1,
   ((stats_invariant_preserved 1 (DatabaseStats.mk 0 5 1 2)
     (OpOutcome.success (7 : ℕ)) (by norm_num [statsInvariant])).2 (by decide)).1⟩

/-! ## Claim C6 -/

/-- **C6**: a height present in the in-process channel is removed and
returned by the first query; a second query for the same height yields
nothing from the channel, and `collect_block` then falls back to the archive
source. -/
theorem precompile_channel_single_delivery (cache : PrecompilesCache)
    (archive : ℕ → Option BlockAndReceipts) (height : ℕ) (v : PrecompileCalls)
    (h : cache height = some v) :
    (get_locally_sourced_precompiles_for_height cache height).1 = some v ∧
    (get_locally_sourced_precompiles_for_height
      (get_locally_sourced_precompiles_for_height cache height).2 height).1 = none ∧
    (collect_block archive (some cache) height).1 = some ⟨v⟩ ∧
    (collect_block archive
      (some (get_locally_sourced_precompiles_for_height cache height).2) height).1 =
      archive height := by
  refine ⟨h, by simp [get_locally_sourced_precompiles_for_height], ?_, ?_⟩
  · simp [collect_block, get_locally_sourced_precompiles_for_height, h]
  · simp [collect_block, get_locally_sourced_precompiles_for_height]

/-- **C6, witness**: a channel holding an entry at height 5 delivers it once;
the second query misses and resolution falls back to the archive. -/
theorem precompile_channel_single_delivery_witness :
    (get_locally_sourced_precompiles_for_height
      (fun h => if h = 5 then some [] else none) 5).1 = some [] ∧
    (get_locally_sourced_precompiles_for_height
      (get_locally_sourced_precompiles_for_height
        (fun h => if h = 5 then some [] else none) 5).2 5).1 = none ∧
    (collect_block (fun _ => none) (some (fun h => if h = 5 then some [] else none)) 5).1 =
      some ⟨[]⟩ ∧
    (collect_block (fun _ => none)
      (some (get_locally_sourced_precompiles_for_height
        (fun h => if h = 5 then some [] else none) 5).2) 5).1 = (fun _ => none) 5 :=
  precompile_channel_single_delivery (fun h => if h = 5 then some [] else none)
    (fun _ => none) 5 [] rfl

/-! ## Claim C1 -/

/-- **C1, counterexample**: with an empty in-process channel and an archive
yielding nothing for height 1, building the execution context does *not*
succeed with an empty precompile result set — `create_evm` aborts
(panics). -/
theorem create_evm_no_soft_fallback_cex :
    (create_evm_precompiles (fun _ => none) none 1).isOk = false ∧
    create_evm_precompiles (fun _ => none) none 1 ≠ Except.ok [] := by
  refine ⟨rfl, ?_⟩
  simp [create_evm_precompiles, collect_block]

/-- **C1** (amended): when neither the in-process channel nor the archive
yields precompile data for a height, constructing the execution context does
not degrade to an empty precompile set — `create_evm` aborts with a panic
naming the height. -/
theorem create_evm_aborts_on_total_miss (archive : ℕ → Option BlockAndReceipts)
    (shared_state : Option PrecompilesCache) (height : ℕ)
    (h : (collect_block archive shared_state height).1 = none) :
    create_evm_precompiles archive shared_state height =
      Except.error ("Failed to collect block at height " ++ toString height) := by
  unfold create_evm_precompiles
  rw [h]

/-- **C1, witness**: height 7, empty channel, archive yielding nothing. -/
theorem create_evm_aborts_on_total_miss_witness :
    (collect_block (fun _ => none) none 7).1 = none ∧
    create_evm_precompiles (fun _ => none) none 7 =
      Except.error ("Failed to collect block at height " ++ toString 7) :=
  ⟨rfl, create_evm_aborts_on_total_miss (fun _ => none) none 7 rfl⟩

end Nanoreth
